import Mathlib

/-!
# Verification of the lczero-server task orchestration and SPRT engine

Shallow embedding, in Lean 4, of the parts of the `lczero-server` Go
repository that the frozen claims are about:

* `internal/sprt/stats.go` — the pentanomial SPRT decision engine
  (`PentanomialSPRT`, `MLE_tvalue`, `stats`, `uniform`, `secular`, `Elo`,
  `logisticElo`).  The Go code computes with `float64`; the embedding uses
  the exact reals `ℝ`, with `Real.log` / `Real.sqrt` for `math.Log` /
  `math.Sqrt`.  Go numeric literals such as `1e-3` are written as exact
  rationals (`1/1000`).
* `internal/server/task_service.go` (gorm variant) and the sql variant of
  the same service — token validation, slice computation, match / training
  task assignment and progress reporting.  The database is modelled as an
  explicit state (`Db`), every repository access is logged in an event
  trace (`DbOp`), and each service function is state-passing.
* `internal/server/auth_service.go` — `generateUniqueToken`, with the
  random source and the existing-token check passed in as functions.
-/

/-! ## The SPRT engine (`internal/sprt/stats.go`)

A pdf entry is one `[2]float64` pair of the Go code: `(outcome value,
probability)`. -/

abbrev PdfEntry := ℝ × ℝ

/-- Outcome of a computation in the sprt package: a value, a Go `error`
return, or a Go runtime `panic`.  The Go functions signal errors through
their second return value and abort through `panic`; the two mechanisms
are kept distinct. -/
inductive SprtOut (α : Type) where
  | ok (val : α)
  | fail (msg : String)
  | panicked (msg : String)
  deriving DecidableEq

/-- The `stats` from stats.go: mean and variance of a pdf.  The two `panic`
guards of the Go code (`probability out of bounds` for an entry outside
`[-1e-6, 1+1e-6]`, `probabilities do not sum to 1` when the total is not
within `1e-6` of 1) become the `panicked` outcomes.  `math.Pow(x, 2)` is
`x ^ 2`. -/
noncomputable def stats (pdf : List PdfEntry) : SprtOut (ℝ × ℝ) :=
  if ∃ v ∈ pdf, v.2 < -(1/1000000) ∨ v.2 > 1 + 1/1000000 then
    .panicked "probability out of bounds"
  else if |((pdf.map (fun v => v.2)).sum) - 1| > 1/1000000 then
    .panicked "probabilities do not sum to 1"
  else
    let s := (pdf.map (fun v => v.2 * v.1)).sum
    let var := (pdf.map (fun v => v.2 * (v.1 - s) ^ 2)).sum
    .ok (s, var)

/-- The `uniform` from stats.go: a uniform pdf with the same support. -/
noncomputable def uniform (pdf : List PdfEntry) : List PdfEntry :=
  pdf.map (fun v => (v.1, 1 / (pdf.length : ℝ)))

/-- The secular function `f` inside `secular`:
`f(x) = Σᵢ pᵢ·aᵢ/(1 + x·aᵢ)`. -/
noncomputable def secularF (pdf : List PdfEntry) (x : ℝ) : ℝ :=
  (pdf.map (fun v => v.2 * v.1 / (1 + x * v.1))).sum

/-- The bisection loop of `secular` (the Go code's `for i := 0; i < maxIter`
loop), as fuel recursion on the remaining iteration count.  State: bracket
`[a, b]` with values `fa`, `fb`; each step takes the midpoint `c`, returns
it when `|f(c)| < 1e-12` or the half-width is below `1e-12`, and otherwise
keeps the half on which the sign change lies. -/
noncomputable def bisectLoop (pdf : List PdfEntry) :
    Nat → ℝ → ℝ → ℝ → ℝ → SprtOut ℝ
  | 0, _, _, _, _ => .fail "secular: did not converge"
  | fuel + 1, a, b, fa, fb =>
    let c := (a + b) / 2
    let fc := secularF pdf c
    if |fc| < 1/1000000000000 ∨ (b - a) / 2 < 1/1000000000000 then .ok c
    else if fa * fc < 0 then bisectLoop pdf fuel a c fa fc
    else bisectLoop pdf fuel c b fc fb

/-- The `secular` from stats.go: solves `Σ pᵢ·aᵢ/(1+x·aᵢ) = 0` by bisection.
`v`/`w` are the minimum/maximum of the support, seeded from the first and
last entry exactly as the Go code does; `epsilon = 1e-9` shrinks the
bracket `(-1/w, -1/v)`.  Errors: `v*w >= 0`, a non-bracketed root, or
exhaustion of the 100 iterations. -/
noncomputable def secular (pdf : List PdfEntry) : SprtOut ℝ :=
  let v := pdf.foldl (fun acc e => if e.1 < acc then e.1 else acc)
    (pdf.headD (0, 0)).1
  let w := pdf.foldl (fun acc e => if e.1 > acc then e.1 else acc)
    (pdf.getLastD (0, 0)).1
  if v * w ≥ 0 then .fail "secular: v*w >= 0"
  else
    let l := -1 / w
    let u := -1 / v
    let a := l + 1/1000000000
    let b := u - 1/1000000000
    let fa := secularF pdf a
    let fb := secularF pdf b
    if fa * fb > 0 then .fail "secular: root not bracketed"
    else bisectLoop pdf 100 a b fa fb

/-- Largest absolute per-bucket probability change between two pdfs (the
`maxDiff` computation at the end of each `MLE_tvalue` iteration). -/
noncomputable def maxAbsDiff (prev next : List PdfEntry) : ℝ :=
  (List.zipWith (fun p q => |p.2 - q.2|) prev next).foldl
    (fun m d => if d > m then d else m) 0

/-- One run of the `MLE_tvalue` fixed-point loop, as fuel recursion on the
remaining iterations (the Go code allows at most 10).  Each pass: mean and
variance of the current iterate (through `stats`, whose panics propagate),
the tilting supports `aᵢ - ref - s·σ·(1 + ((μ-aᵢ)/σ)²)/2`, the secular
root `x` (whose errors propagate), the update
`p̂ᵢ / (1 + x·tiltᵢ)`, and the `maxDiff < 1e-9` convergence test.  When
the fuel runs out the current iterate is returned, exactly as the Go loop
falls through after its tenth iteration. -/
noncomputable def mleLoop (pdfhat : List PdfEntry) (ref s : ℝ) :
    Nat → List PdfEntry → SprtOut (List PdfEntry)
  | 0, pdfMLE => .ok pdfMLE
  | fuel + 1, pdfMLE =>
    match stats pdfMLE with
    | .fail e => .fail e
    | .panicked e => .panicked e
    | .ok (mu, var) =>
      let sigma := Real.sqrt var
      let pdf1 := pdfhat.map (fun v =>
        (v.1 - ref - s * sigma * (1 + ((mu - v.1) / sigma) ^ 2) / 2, v.2))
      match secular pdf1 with
      | .fail e => .fail e
      | .panicked e => .panicked e
      | .ok x =>
        let next := List.zipWith
          (fun hv tv => (hv.1, hv.2 / (1 + x * tv.1))) pdfhat pdf1
        if maxAbsDiff pdfMLE next < 1/1000000000 then .ok next
        else mleLoop pdfhat ref s fuel next

/-- The `MLE_tvalue` from stats.go: the maximum-likelihood-adjusted
distribution for a given t-value, starting from the uniform distribution
and iterating at most 10 times. -/
noncomputable def MLE_tvalue (pdfhat : List PdfEntry) (ref s : ℝ) :
    SprtOut (List PdfEntry) :=
  mleLoop pdfhat ref s 10 (uniform pdfhat)

/-- The count-clipping step of `PentanomialSPRT`: each count, converted to
a real, is raised to at least `1e-3` to avoid division by zero. -/
noncomputable def clipped (results : List ℤ) : List ℝ :=
  results.map (fun x => if (x : ℝ) < 1/1000 then 1/1000 else (x : ℝ))

/-- The Elo-to-t conversion of `PentanomialSPRT`:
`nt = elo / (800/ln 10)`, `t = nt·√2`. -/
noncomputable def tvalue (elo : ℝ) : ℝ :=
  elo / (800 / Real.log 10) * Real.sqrt 2

/-- The empirical pdf `PentanomialSPRT` builds from the clipped counts:
bucket values `i/4` for `i = 0..4`, probabilities `rᵢ/N`. -/
noncomputable def empPdf (results : List ℤ) : List PdfEntry :=
  let r := clipped results
  List.zipWith (fun i ri => ((i : ℝ) / 4, ri / r.sum)) (List.range 5) r

/-- Three-list `zipWith`, used for the per-bucket log-likelihood-ratio
construction (the Go code indexes three same-length slices). -/
def zipWith3 (f : α → β → γ → δ) : List α → List β → List γ → List δ
  | a :: as, b :: bs, c :: cs => f a b c :: zipWith3 f as bs cs
  | _, _, _ => []

/-- The `PentanomialSPRT` from stats.go.  Length check, count clipping,
empirical pdf, the two MLE-adjusted distributions for `t0`/`t1` (errors
and panics propagate), the per-bucket LLR weighted by the empirical
distribution, and the final `N·s`. -/
noncomputable def PentanomialSPRT (results : List ℤ) (elo0 elo1 : ℝ) :
    SprtOut ℝ :=
  if results.length ≠ 5 then .fail "results must have length 5"
  else
    let pdf := empPdf results
    let N := (clipped results).sum
    match MLE_tvalue pdf (1/2) (tvalue elo0) with
    | .fail e => .fail e
    | .panicked e => .panicked e
    | .ok pdf0 =>
      match MLE_tvalue pdf (1/2) (tvalue elo1) with
      | .fail e => .fail e
      | .panicked e => .panicked e
      | .ok pdf1 =>
        let mlePDF := zipWith3
          (fun q0 q1 pv => (Real.log q1.2 - Real.log q0.2, pv.2))
          pdf0 pdf1 pdf
        match stats mlePDF with
        | .fail e => .fail e
        | .panicked e => .panicked e
        | .ok sv => .ok (N * sv.1)

/-- The `logisticElo` from stats.go: clip to `[1e-3, 1-1e-3]`, then
`-400·log₁₀(1/x - 1)`. -/
noncomputable def logisticElo (x : ℝ) : ℝ :=
  let x' := min (max x (1/1000)) (1 - 1/1000);
  -400 * Real.logb 10 (1 / x' - 1)

/-- The `Elo` from stats.go: logistic Elo and 95% Student-t confidence
interval for a result histogram.  The Student-t quantile function comes
from the external gonum library (`distuv.StudentsT{Nu: df}.Quantile`),
which is not part of this repository; it is passed in as the parameter
`tQuantile df p`, so every theorem below holds for every implementation
of it. -/
noncomputable def Elo (tQuantile : ℝ → ℝ → ℝ) (results : List ℤ) :
    ℝ × ℝ × ℝ :=
  let N := results.sum
  if N = 0 ∨ N = 1 then (0, 0, 0)
  else
    let d := ((results.length : ℝ) - 1)
    let mu := ((results.enum.map
      (fun fc => ((fc.1 : ℝ) / d) * (fc.2 : ℝ))).sum) / (N : ℝ)
    let variance := ((results.enum.map
      (fun fc => ((fc.1 : ℝ) / d - mu) ^ 2 * (fc.2 : ℝ))).sum) / (N : ℝ)
    let df := (N : ℝ) - 1
    let muMin := mu + tQuantile df (25/1000) *
      Real.sqrt variance / Real.sqrt (N : ℝ)
    let muMax := mu + tQuantile df (975/1000) *
      Real.sqrt variance / Real.sqrt (N : ℝ)
    (logisticElo muMin, logisticElo mu, logisticElo muMax)

/-! ## Server data model (`internal/models/models.go`, schema.sql)

Bearer tokens are byte strings (`List UInt8`, Go indexes them byte-wise);
timestamps are abstract instants (`Nat`); row identifiers are `Nat`
(`BIGSERIAL` / gorm primary keys); Go `int` counters are `Int`. -/

/-- Model of `models.AuthToken`. -/
structure AuthToken where
  id : Nat
  userId : Option Nat
  token : List UInt8
  lastUsedAt : Option Nat
  issuedReason : String
  clientVersion : String
  clientHost : String
  gpuType : String
  gpuId : Option Int
  deriving DecidableEq

/-- Model of `models.TrainingRun` (gorm variant's run selection). -/
structure TrainingRun where
  id : Nat
  bestNetworkId : Nat
  description : String
  trainParameters : String
  matchParameters : String
  trainBook : String
  matchBook : String
  active : Bool
  lastNetwork : Nat
  lastGame : Nat
  permissionExpr : String
  multiNetMode : Bool
  deriving DecidableEq

/-- Model of `models.Network`. -/
structure Network where
  id : Nat
  trainingRunId : Nat
  networkNumber : Nat
  sha : String
  path : String
  layers : Int
  filters : Int
  gamesPlayed : Int
  elo : ℝ
  anchor : Bool
  eloSet : Bool

/-- Model of `models.Match`. -/
structure MatchRec where
  id : Nat
  trainingRunId : Nat
  parameters : String
  candidateId : Nat
  currentBestId : Nat
  gamesCreated : Int
  wins : Int
  losses : Int
  draws : Int
  gameCap : Int
  done : Bool
  passed : Bool
  testOnly : Bool
  specialParams : Bool
  targetSlice : Int
  deriving DecidableEq

/-- Model of `models.MatchGame`. -/
structure MatchGame where
  id : Nat
  userId : Nat
  matchId : Nat
  version : Nat
  pgn : String
  result : Int
  done : Bool
  flip : Bool
  engineVersion : String
  deriving DecidableEq

/-- Model of `models.Book`. -/
structure Book where
  id : Nat
  sha256 : String
  url : String
  sizeBytes : Int
  format : String
  deriving DecidableEq

/-- The columns of `models.TrainingTask` read by
`queries.FetchActiveTrainingTask` (sql variant), plus the `active` flag
its WHERE clause filters on. -/
structure TrainingTaskRec where
  id : Nat
  taskId : Nat
  trainingRunId : Option Nat
  trainBookId : Nat
  matchBookId : Nat
  bestNetworkId : Nat
  trainParameters : String
  matchParameters : String
  active : Bool
  deriving DecidableEq

/-- The `models.GrpcTask` (gorm variant) and `models.TaskAssignment`
(sql variant): the per-assignment row carrying heartbeat and status. -/
structure TaskRow where
  id : Nat
  taskId : String
  taskType : String
  payloadJSON : String
  assignedTokenId : Option Nat
  assignedAt : Option Nat
  lastHeartbeatAt : Option Nat
  status : String
  cancelledAt : Option Nat
  completedAt : Option Nat
  deriving DecidableEq

/-- Task status constants from models.go. -/
def TaskStatusActive : String := "ACTIVE"

/-- Model of `models.TaskStatusCancelled`. -/
def TaskStatusCancelled : String := "CANCELLED"

/-- Model of `models.TaskTypeMatch`. -/
def TaskTypeMatch : String := "MATCH"

/-- Model of `models.TaskTypeTraining`. -/
def TaskTypeTraining : String := "TRAINING"

/-- The relational store, one list per table, plus the `BIGSERIAL`
sequence used for inserted rows. -/
structure Db where
  authTokens : List AuthToken
  trainingRuns : List TrainingRun
  networks : List Network
  matchRows : List MatchRec
  matchGames : List MatchGame
  books : List Book
  trainingTasks : List TrainingTaskRec
  taskRows : List TaskRow
  nextId : Nat

/-- One logged repository access (read or write), for stating that a code
path touches the store or does not. -/
inductive DbOp where
  | readAuthToken
  | writeAuthToken
  | readTrainingRun
  | readTrainingTask
  | readNetwork
  | readMatch
  | readBook
  | insertMatchGame
  | updateMatchGame
  | insertTaskRow
  | readTaskRow
  | writeTaskRow
  deriving DecidableEq

/-- Database plus the trace of repository operations performed so far. -/
structure Sys where
  db : Db
  log : List DbOp

/-- Append one repository operation to the trace. -/
def logOp (s : Sys) (op : DbOp) : Sys :=
  { s with log := s.log ++ [op] }

/-- Replace the database component of the system state. -/
def setDb (s : Sys) (db : Db) : Sys :=
  { s with db := db }

/-- The byte string `"lc0-"`, the fixed token prefix used by
`validateToken` and `generateUniqueToken`. -/
def lc0Bytes : List UInt8 := [108, 99, 48, 45]

/-- The format guard of `validateToken` (identical in the gorm and sql
variants): `len(token) < 5 || token[:4] != "lc0-"`. -/
def tokenFormatBad (token : List UInt8) : Bool :=
  token.length < 5 || token.take 4 != lc0Bytes

/-- The error values surfaced by the service layer. -/
inductive ServerErr where
  | invalidTokenFormat
  | notFound
  deriving DecidableEq

/-- Select `ORDER BY id ASC ... LIMIT 1` over a row list. -/
def firstByIdAsc {α : Type} (key : α → Nat) (l : List α) : Option α :=
  l.foldl (fun acc m =>
    match acc with
    | none => some m
    | some b => if key m < key b then some m else some b) none

/-- Token lookup by token string (`WHERE token = ?`).  The gorm variant's
additional `active = ?` clause and the sql variant's scan both operate
below the repository abstraction and are not modelled. -/
def findAuthToken (db : Db) (token : List UInt8) : Option AuthToken :=
  db.authTokens.find? (fun t => t.token == token)

/-- Write back one auth-token row (gorm `Save` / `UPDATE auth_tokens`). -/
def saveAuthToken (db : Db) (t : AuthToken) : Db :=
  { db with authTokens := db.authTokens.map (fun u => if u.id == t.id then t else u) }

/-- The `validateToken` (both service variants): reject a malformed token
before touching the repository, otherwise look the token up and stamp its
last-used time. -/
def validateToken (s : Sys) (token : List UInt8) (now : Nat) :
    Except ServerErr AuthToken × Sys :=
  if tokenFormatBad token then (.error .invalidTokenFormat, s)
  else
    let s1 := logOp s .readAuthToken
    match findAuthToken s1.db token with
    | none => (.error .notFound, s1)
    | some tok =>
      let tok' := { tok with lastUsedAt := some now }
      (.ok tok', setDb (logOp s1 .writeAuthToken) (saveAuthToken s1.db tok'))

/-- The client-info fields of the request. -/
structure ClientInfo where
  hostname : String
  version : String
  gpuType : String
  gpuId : Int

/-- The `updateClientInfo`: refresh the audit fields of the caller's token. -/
def updateClientInfo (s : Sys) (tok : AuthToken) (ci : ClientInfo) (now : Nat) : Sys :=
  setDb (logOp s .writeAuthToken)
    { s.db with authTokens := s.db.authTokens.map (fun u =>
        if u.id == tok.id then
          { u with lastUsedAt := some now, clientHost := ci.hostname,
                   clientVersion := ci.version, gpuType := ci.gpuType,
                   gpuId := some ci.gpuId }
        else u) }

/-- The deterministic slice computation inlined in `GetNextTask` (both
variants): 1 for an empty token, otherwise the byte sum modulo 3 plus 1. -/
def computeSlice (token : List UInt8) : Nat :=
  if token.length > 0 then
    (token.foldl (fun acc b => acc + b.toNat) 0) % 3 + 1
  else 1

/-- The side assignment `flip := (mg.ID & 1) == 1` computed from a newly
inserted match-game identifier (both variants). -/
def flipOf (id : Nat) : Bool :=
  (id &&& 1) == 1

/-- Model of `pb.ResourceType`. -/
inductive ResourceType where
  | network
  | book
  deriving DecidableEq

/-- Model of `pb.ResourceSpec`. -/
structure ResourceSpec where
  sha256 : String
  url : String
  sizeBytes : Int
  rtype : ResourceType
  format : String
  deriving DecidableEq

/-- The `pb.EngineParams` (the UCI-option map is modelled as an association
list; the service code always sends it empty). -/
structure EngineParams where
  args : List String
  uciOptions : List (String × String)
  deriving DecidableEq

/-- The `pb.EngineConfiguration` (the build spec is always the empty
`pb.BuildSpec{}` in the service code and is omitted). -/
structure EngineConfiguration where
  network : ResourceSpec
  params : EngineParams
  deriving DecidableEq

/-- Model of `pb.MatchTask`. -/
structure MatchTaskPayload where
  baseline : EngineConfiguration
  candidate : EngineConfiguration
  openingBook : ResourceSpec
  deriving DecidableEq

/-- The `pb.TrainingTask` (`nodesPerMove` is left at the proto default 0 by
the gorm variant and set to 8000 by the sql variant). -/
structure TrainingTaskPayload where
  engine : EngineConfiguration
  openingBook : ResourceSpec
  nodesPerMove : Int
  deriving DecidableEq

/-- The `oneof` task payload of `pb.TaskResponse`. -/
inductive TaskPayload where
  | matchTask (m : MatchTaskPayload)
  | training (t : TrainingTaskPayload)
  deriving DecidableEq

/-- Model of `pb.TaskResponse`. -/
structure TaskResponse where
  taskId : String
  task : TaskPayload
  deriving DecidableEq

/-- The `queries.FetchPendingMatch` / the gorm match query: the lowest-id
match with `done = false`, the given training run, and a target slice of
0 (wildcard) or the caller's slice. -/
def fetchPendingMatch (s : Sys) (trainingRunId : Nat) (slice : Int) :
    Option MatchRec × Sys :=
  (firstByIdAsc (fun m => m.id) (s.db.matchRows.filter (fun m =>
      !m.done && m.trainingRunId == trainingRunId &&
        (m.targetSlice == 0 || m.targetSlice == slice))),
   logOp s .readMatch)

/-- The `queries.FetchNetworkByID` / gorm network load. -/
def fetchNetworkByID (s : Sys) (id : Nat) : Option Network × Sys :=
  (s.db.networks.find? (fun n => n.id == id), logOp s .readNetwork)

/-- The gorm row-select on `TrainingRun`:
`Where("active = ?", true).Order("id ASC").First`. -/
def fetchActiveTrainingRun (s : Sys) : Option TrainingRun × Sys :=
  (firstByIdAsc (fun r => r.id) (s.db.trainingRuns.filter (fun r => r.active)),
   logOp s .readTrainingRun)

/-- The `queries.InsertMatchGame` / gorm `Create(mg)`: append a match-game
row with the next sequence identifier (remaining columns at their Go
zero values) and return that identifier. -/
def insertMatchGame (s : Sys) (userId matchId : Nat) (done : Bool) :
    Nat × Sys :=
  let id := s.db.nextId
  let row : MatchGame :=
    { id := id, userId := userId, matchId := matchId, version := 0,
      pgn := "", result := 0, done := done, flip := false,
      engineVersion := "" }
  (id, setDb (logOp s .insertMatchGame)
    { s.db with matchGames := s.db.matchGames ++ [row],
                nextId := s.db.nextId + 1 })

/-- The `queries.UpdateMatchGameFlip` / gorm `Update("flip", flip)`. -/
def updateMatchGameFlip (s : Sys) (id : Nat) (flip : Bool) : Sys :=
  setDb (logOp s .updateMatchGame)
    { s.db with matchGames := s.db.matchGames.map (fun g =>
        if g.id == id then { g with flip := flip } else g) }

/-- The `queries.FetchNetworkSha`: the Go function returns the pair
`(sha, err)`; when the row is missing the scan fails and the sha string
keeps its zero value `""`. -/
def fetchNetworkSha (s : Sys) (id : Nat) :
    (String × Option ServerErr) × Sys :=
  (match s.db.networks.find? (fun n => n.id == id) with
   | some n => (n.sha, none)
   | none => ("", some .notFound),
   logOp s .readNetwork)

/-- The `queries.FetchBookByID`: returns `(sha, url, size, err)` with zero
values when the row is missing. -/
def fetchBookById (s : Sys) (id : Nat) :
    (String × String × Int × Option ServerErr) × Sys :=
  (match s.db.books.find? (fun b => b.id == id) with
   | some b => (b.sha256, b.url, b.sizeBytes, none)
   | none => ("", "", 0, some .notFound),
   logOp s .readBook)

/-- The `queries.InsertTaskAssignment` / gorm `Create(grpcTask)`: append the
assignment row and return its identifier. -/
def insertTaskRow (s : Sys) (taskId taskType : String)
    (assignedTokenId : Option Nat) (assignedAt lastHeartbeatAt : Nat)
    (status : String) : Nat × Sys :=
  let id := s.db.nextId
  let row : TaskRow :=
    { id := id, taskId := taskId, taskType := taskType, payloadJSON := "",
      assignedTokenId := assignedTokenId, assignedAt := some assignedAt,
      lastHeartbeatAt := some lastHeartbeatAt, status := status,
      cancelledAt := none, completedAt := none }
  (id, setDb (logOp s .insertTaskRow)
    { s.db with taskRows := s.db.taskRows ++ [row],
                nextId := s.db.nextId + 1 })

/-- Lookup of the assignment row by its external task identifier
(`WHERE task_id = ?`), used by `ReportProgress`. -/
def fetchTaskRowByTaskId (s : Sys) (taskId : String) :
    Option TaskRow × Sys :=
  (s.db.taskRows.find? (fun t => t.taskId == taskId), logOp s .readTaskRow)

/-- gorm `Save(&task)`: write the whole row back by primary key. -/
def saveTaskRow (s : Sys) (row : TaskRow) : Sys :=
  setDb (logOp s .writeTaskRow)
    { s.db with taskRows := s.db.taskRows.map (fun t =>
        if t.id == row.id then row else t) }

/-- The zero `models.Network`, which is what a gorm `Preload` leaves in
the association field when the referenced row does not exist. -/
def zeroNetwork : Network :=
  { id := 0, trainingRunId := 0, networkNumber := 0, sha := "", path := "",
    layers := 0, filters := 0, gamesPlayed := 0, elo := 0, anchor := false,
    eloSet := false }

/-- The `getNextMatchTask`, sql variant (`queries`-based file): find the
oldest eligible match; insert a match-game row for the caller, then store
`flip := (id & 1) == 1` for it; resolve the candidate and current-best
network hashes and the match book — all three lookups discard their error
result (`sha, _ := ...`), so a missing row silently yields zero values in
the payload; record the task assignment.  The time-formatted external
task identifier is passed in as `taskId`. -/
def getNextMatchTaskSql (s : Sys) (tok : AuthToken) (tr : TrainingTaskRec)
    (now : Nat) (taskId : String) (slice : Int) :
    Option TaskResponse × Sys :=
  match fetchPendingMatch s tr.id slice with
  | (none, s1) => (none, s1)
  | (some pendingMatch, s1) =>
    let userId := tok.userId.getD 0
    let (mgId, s2) := insertMatchGame s1 userId pendingMatch.id false
    let flip := flipOf mgId
    let s3 := updateMatchGameFlip s2 mgId flip
    let (candP, s4) := fetchNetworkSha s3 pendingMatch.candidateId
    let (bestP, s5) := fetchNetworkSha s4 pendingMatch.currentBestId
    let (bookP, s6) := fetchBookById s5 tr.matchBookId
    let baselineNetRes : ResourceSpec :=
      { sha256 := bestP.1, url := "", sizeBytes := 0, rtype := .network,
        format := "" }
    let candidateNetRes : ResourceSpec :=
      { sha256 := candP.1, url := "", sizeBytes := 0, rtype := .network,
        format := "" }
    let matchBook : ResourceSpec :=
      { sha256 := bookP.1, url := bookP.2.1, sizeBytes := bookP.2.2.1,
        rtype := .book, format := "pgn" }
    let engineParams : EngineParams :=
      { args := [tr.matchParameters], uciOptions := [] }
    let matchTask : MatchTaskPayload :=
      { baseline := { network := baselineNetRes, params := engineParams },
        candidate := { network := candidateNetRes, params := engineParams },
        openingBook := matchBook }
    let (_, s7) :=
      insertTaskRow s6 taskId TaskTypeMatch (some tok.id) now now
        TaskStatusActive
    (some { taskId := taskId, task := .matchTask matchTask }, s7)

/-- The `getNextMatchTask`, gorm variant (task_service.go): the match query
preloads the `Candidate` and `CurrentBest` associations, which stay at the
zero `Network` (empty sha) when the referenced row is missing; the match
book is referenced by the run's `MatchBook` URL with an empty hash; the
assignment row is a `GrpcTask`. -/
def getNextMatchTaskGorm (s : Sys) (tok : AuthToken) (tr : TrainingRun)
    (now : Nat) (taskId : String) (slice : Int) :
    Option TaskResponse × Sys :=
  match fetchPendingMatch s tr.id slice with
  | (none, s1) => (none, s1)
  | (some pendingMatch, s1) =>
    let (candOpt, s2) := fetchNetworkByID s1 pendingMatch.candidateId
    let (bestOpt, s3) := fetchNetworkByID s2 pendingMatch.currentBestId
    let candidate := candOpt.getD zeroNetwork
    let currentBest := bestOpt.getD zeroNetwork
    let (mgId, s4) :=
      insertMatchGame s3 (tok.userId.getD 0) pendingMatch.id false
    let s5 := updateMatchGameFlip s4 mgId (flipOf mgId)
    let baselineNetRes : ResourceSpec :=
      { sha256 := currentBest.sha, url := "", sizeBytes := 0,
        rtype := .network, format := "" }
    let candidateNetRes : ResourceSpec :=
      { sha256 := candidate.sha, url := "", sizeBytes := 0,
        rtype := .network, format := "" }
    let matchBook : ResourceSpec :=
      { sha256 := "", url := tr.matchBook, sizeBytes := 0, rtype := .book,
        format := "pgn" }
    let engineParams : EngineParams :=
      { args := [tr.matchParameters], uciOptions := [] }
    let matchTask : MatchTaskPayload :=
      { baseline := { network := baselineNetRes, params := engineParams },
        candidate := { network := candidateNetRes, params := engineParams },
        openingBook := matchBook }
    let (_, s6) :=
      insertTaskRow s5 taskId TaskTypeMatch
        (if tok.id == 0 then none else some tok.id) now now
        TaskStatusActive
    (some { taskId := taskId, task := .matchTask matchTask }, s6)

/-- The `getNextTrainingTask`, gorm variant: training payload from the run's
best network and train book, plus a new assignment row. -/
def getNextTrainingTaskGorm (s : Sys) (tok : AuthToken) (tr : TrainingRun)
    (net : Network) (now : Nat) (taskId : String) : TaskResponse × Sys :=
  let networkRes : ResourceSpec :=
    { sha256 := net.sha, url := "", sizeBytes := 0, rtype := .network,
      format := "" }
  let openingBookRes : ResourceSpec :=
    { sha256 := "", url := tr.trainBook, sizeBytes := 0, rtype := .book,
      format := "pgn" }
  let engineCfg : EngineConfiguration :=
    { network := networkRes,
      params := { args := [tr.trainParameters], uciOptions := [] } }
  let (_, s1) :=
    insertTaskRow s taskId TaskTypeTraining
      (if tok.id == 0 then none else some tok.id) now now TaskStatusActive
  ({ taskId := taskId,
     task := .training { engine := engineCfg, openingBook := openingBookRes,
                         nodesPerMove := 0 } }, s1)

/-- The `GetNextTask`, gorm variant: validate the token (malformed tokens are
rejected before any repository access), refresh audit fields, pick the
lowest-id active training run and its best network (hard errors when
absent), compute the caller's slice, and try a match task before falling
back to training. -/
def GetNextTask (s : Sys) (token : List UInt8) (clientInfo : ClientInfo)
    (now : Nat) (taskId : String) : Except ServerErr TaskResponse × Sys :=
  match validateToken s token now with
  | (.error e, s1) => (.error e, s1)
  | (.ok tok, s1) =>
    let s2 := updateClientInfo s1 tok clientInfo now
    match fetchActiveTrainingRun s2 with
    | (none, s3) => (.error .notFound, s3)
    | (some tr, s3) =>
      match fetchNetworkByID s3 tr.bestNetworkId with
      | (none, s4) => (.error .notFound, s4)
      | (some net, s4) =>
        let slice := computeSlice token
        match getNextMatchTaskGorm s4 tok tr now taskId (slice : Int) with
        | (some resp, s5) => (.ok resp, s5)
        | (none, s5) =>
          let (resp, s6) := getNextTrainingTaskGorm s5 tok tr net now taskId
          (.ok resp, s6)

/-- The `oneof` progress kinds of `pb.ProgressReport`; every arm of the
service's switch is a TODO no-op. -/
inductive ProgressKind where
  | training
  | matchKind
  | sprt
  | tuning
  deriving DecidableEq

/-- The `pb.ProgressResponse` status. -/
inductive ProgressStatus where
  | active
  | cancelled
  deriving DecidableEq

/-- The `ReportProgress`, gorm variant: validate the token, fetch the
assignment row by external task identifier, stamp `lastHeartbeatAt` with
the current time, dispatch on the progress kind (all arms empty), save
the row, and answer CANCELLED exactly when the stored status was
CANCELLED. -/
def ReportProgress (s : Sys) (token : List UInt8) (taskIdArg : String)
    (kind : ProgressKind) (now : Nat) :
    Except ServerErr ProgressStatus × Sys :=
  match validateToken s token now with
  | (.error e, s1) => (.error e, s1)
  | (.ok _, s1) =>
    match fetchTaskRowByTaskId s1 taskIdArg with
    | (none, s2) => (.error .notFound, s2)
    | (some task, s2) =>
      let task1 := { task with lastHeartbeatAt := some now }
      let task2 := match kind with
        | .training => task1
        | .matchKind => task1
        | .sprt => task1
        | .tuning => task1
      let s3 := saveTaskRow s2 task2
      let status := if task.status == TaskStatusCancelled then
          ProgressStatus.cancelled
        else ProgressStatus.active
      (.ok status, s3)

/-! ## Token generation (`internal/server/auth_service.go`) -/

/-- The byte table `"0123456789abcdef"` of Go's `encoding/hex`. -/
def hexTable : List UInt8 :=
  [48, 49, 50, 51, 52, 53, 54, 55, 56, 57, 97, 98, 99, 100, 101, 102]

/-- The `hex.EncodeToString` on a byte slice: each byte becomes its high
nibble's and low nibble's hex characters. -/
def hexEncode (bs : List UInt8) : List UInt8 :=
  bs.flatMap (fun b => [hexTable.getD (b.toNat / 16) 0,
                        hexTable.getD (b.toNat % 16) 0])

/-- The attempt loop of `generateUniqueToken`, as fuel recursion on the
remaining attempts (10 at the top level).  `rand i` is the 32-byte output
of `crypto/rand.Read` on attempt `i`; `existsTok` is the
`SELECT COUNT(1) ... WHERE token = $1` uniqueness probe (`true` when the
count is nonzero).  A non-colliding token is returned, otherwise the next
attempt runs until the attempts are exhausted. -/
def generateUniqueTokenLoop (rand : Nat → List UInt8)
    (existsTok : List UInt8 → Bool) : Nat → Nat → Except String (List UInt8)
  | 0, _ => .error "could not generate unique token after several attempts"
  | fuel + 1, i =>
    let raw := rand i
    let token := lc0Bytes ++ hexEncode raw
    if existsTok token then generateUniqueTokenLoop rand existsTok fuel (i + 1)
    else .ok token

/-- The `generateUniqueToken`: prefix `"lc0-"` plus 64 hex characters from 32
random bytes, with at most 10 uniqueness attempts. -/
def generateUniqueToken (rand : Nat → List UInt8)
    (existsTok : List UInt8 → Bool) : Except String (List UInt8) :=
  generateUniqueTokenLoop rand existsTok 10 0

/-! ## Theorems -/

/-- Folding byte addition over a token equals the byte-value sum. -/
theorem foldl_add_toNat (l : List UInt8) (acc : Nat) :
    l.foldl (fun a b => a + b.toNat) acc =
      acc + (l.map (fun b => b.toNat)).sum := by
  induction l generalizing acc with
  | nil => simp
  | cons h t ih => simp [ih, Nat.add_assoc]

/-- C3: for every token byte string, the slice `GetNextTask` computes is
in {1,2,3}; for a non-empty token it is the byte-value sum modulo 3 plus
one, for the empty token it is 1, and it is a pure function of the bytes
(the same token always yields the same slice). -/
theorem slice_deterministic_in_range (token : List UInt8) :
    (computeSlice token = 1 ∨ computeSlice token = 2 ∨
      computeSlice token = 3) ∧
    (token ≠ [] →
      computeSlice token = (token.map (fun b => b.toNat)).sum % 3 + 1) ∧
    (token = [] → computeSlice token = 1) ∧
    (∀ t2, t2 = token → computeSlice t2 = computeSlice token) := by
  refine ⟨?_, ?_, ?_, ?_⟩
  · unfold computeSlice
    split
    · have h3 : token.foldl (fun acc b => acc + b.toNat) 0 % 3 < 3 :=
        Nat.mod_lt _ (by omega)
      omega
    · exact Or.inl rfl
  · intro hne
    have hlen : token.length > 0 := List.length_pos.mpr hne
    unfold computeSlice
    rw [if_pos hlen, foldl_add_toNat]
    simp
  · intro he
    subst he
    rfl
  · intro t2 ht
    rw [ht]

/-- Witness for C3 at the one-byte token `[108]`. -/
theorem slice_deterministic_in_range_witness :
    computeSlice [(108 : UInt8)] = 1 := by
  have h := (slice_deterministic_in_range [(108 : UInt8)]).2.1 (by simp)
  rw [h]
  decide

/-- C5: on a histogram of non-negative counts with total at most 1 —
in particular on the empty list — `Elo` short-circuits to `(0, 0, 0)`
(for every Student-t quantile implementation), so none of the divisions
of the general branch is performed. -/
theorem elo_degenerate_zero (tQuantile : ℝ → ℝ → ℝ) (results : List ℤ)
    (hnn : ∀ x ∈ results, 0 ≤ x) (hN : results.sum ≤ 1) :
    Elo tQuantile results = (0, 0, 0) := by
  have h0 : 0 ≤ results.sum := List.sum_nonneg hnn
  have hcase : results.sum = 0 ∨ results.sum = 1 := by omega
  unfold Elo
  rw [if_pos hcase]

/-- Witness for C5 at the empty histogram. -/
theorem elo_degenerate_zero_witness :
    Elo (fun _ _ => 0) ([] : List ℤ) = (0, 0, 0) :=
  elo_degenerate_zero (fun _ _ => 0) [] (by simp) (by simp)

/-- C7: a token shorter than 5 bytes or not starting with `"lc0-"` is
rejected by `validateToken`, `GetNextTask` and `ReportProgress` with the
invalid-token-format error, with the whole system state — database and
repository-operation trace — returned unchanged: no repository read or
write happens. -/
theorem invalid_token_no_repo_access (s : Sys) (token : List UInt8)
    (ci : ClientInfo) (now : Nat) (tid : String) (kind : ProgressKind)
    (h : token.length < 5 ∨ token.take 4 ≠ lc0Bytes) :
    validateToken s token now = (.error .invalidTokenFormat, s) ∧
    GetNextTask s token ci now tid = (.error .invalidTokenFormat, s) ∧
    ReportProgress s token tid kind now = (.error .invalidTokenFormat, s) := by
  have hbad : tokenFormatBad token = true := by
    rcases h with h | h
    · simp [tokenFormatBad, h]
    · simp [tokenFormatBad, h]
  have hv : validateToken s token now = (.error .invalidTokenFormat, s) := by
    unfold validateToken
    rw [if_pos hbad]
  refine ⟨hv, ?_, ?_⟩
  · unfold GetNextTask
    rw [hv]
  · unfold ReportProgress
    rw [hv]

/-- Witness for C7 at the empty token and an empty store. -/
theorem invalid_token_no_repo_access_witness :
    GetNextTask
      { db := { authTokens := [], trainingRuns := [], networks := [],
                matchRows := [], matchGames := [], books := [],
                trainingTasks := [], taskRows := [], nextId := 1 },
        log := [] }
      [] { hostname := "", version := "", gpuType := "", gpuId := 0 } 0 "t" =
    (.error .invalidTokenFormat,
      { db := { authTokens := [], trainingRuns := [], networks := [],
                matchRows := [], matchGames := [], books := [],
                trainingTasks := [], taskRows := [], nextId := 1 },
        log := [] }) :=
  (invalid_token_no_repo_access _ [] _ 0 "t" ProgressKind.training
    (Or.inl (by decide))).2.1

/-- The flip computation agrees with identifier parity. -/
theorem flipOf_eq_mod (id : Nat) : flipOf id = decide (id % 2 = 1) := by
  rcases Nat.mod_two_eq_zero_or_one id with h | h <;>
    simp [flipOf, Nat.and_one_is_mod, h]


/-- The match-game table after a successful sql-variant match assignment:
every pre-existing row is rewritten only where its identifier collides
with the fresh one, and the freshly inserted row carries the flip bit of
the new identifier. -/
theorem getNextMatchTaskSql_matchGames (s : Sys) (tok : AuthToken)
    (tr : TrainingTaskRec) (now : Nat) (tid : String) (slice : Int)
    (m : MatchRec) (hm : (fetchPendingMatch s tr.id slice).1 = some m) :
    (getNextMatchTaskSql s tok tr now tid slice).2.db.matchGames =
      s.db.matchGames.map (fun g : MatchGame =>
        if g.id = s.db.nextId then { g with flip := flipOf s.db.nextId }
        else g) ++
      [({ id := s.db.nextId, userId := tok.userId.getD 0, matchId := m.id,
          version := 0, pgn := "", result := 0, done := false,
          flip := flipOf s.db.nextId, engineVersion := "" } : MatchGame)] := by
  have hpair : fetchPendingMatch s tr.id slice = (some m, logOp s .readMatch) := by
    have hsplit : fetchPendingMatch s tr.id slice =
        ((fetchPendingMatch s tr.id slice).1, logOp s .readMatch) := rfl
    rw [hsplit, hm]
  unfold getNextMatchTaskSql
  rw [hpair]
  simp [insertMatchGame, updateMatchGameFlip, fetchNetworkSha, fetchBookById,
        insertTaskRow, setDb, logOp]

/-- The match-game table after a successful gorm-variant match assignment. -/
theorem getNextMatchTaskGorm_matchGames (s : Sys) (tok : AuthToken)
    (tr : TrainingRun) (now : Nat) (tid : String) (slice : Int)
    (m : MatchRec) (hm : (fetchPendingMatch s tr.id slice).1 = some m) :
    (getNextMatchTaskGorm s tok tr now tid slice).2.db.matchGames =
      s.db.matchGames.map (fun g : MatchGame =>
        if g.id = s.db.nextId then { g with flip := flipOf s.db.nextId }
        else g) ++
      [({ id := s.db.nextId, userId := tok.userId.getD 0, matchId := m.id,
          version := 0, pgn := "", result := 0, done := false,
          flip := flipOf s.db.nextId, engineVersion := "" } : MatchGame)] := by
  have hpair : fetchPendingMatch s tr.id slice = (some m, logOp s .readMatch) := by
    have hsplit : fetchPendingMatch s tr.id slice =
        ((fetchPendingMatch s tr.id slice).1, logOp s .readMatch) := rfl
    rw [hsplit, hm]
  unfold getNextMatchTaskGorm
  rw [hpair]
  simp [insertMatchGame, updateMatchGameFlip, fetchNetworkByID,
        insertTaskRow, setDb, logOp]

/-- Finding the fresh row: the rewritten old rows keep their identifiers,
none of which is the fresh one, so `find?` lands on the appended row. -/
theorem find?_fresh_append (gs : List MatchGame) (n : Nat) (g0 : MatchGame)
    (hfresh : ∀ g ∈ gs, g.id ≠ n) (f : MatchGame → MatchGame)
    (hf : ∀ g, (f g).id = g.id) (hg0 : g0.id = n) :
    (gs.map f ++ [g0]).find? (fun g => g.id == n) = some g0 := by
  rw [List.find?_append]
  have h1 : (gs.map f).find? (fun g => g.id == n) = none := by
    rw [List.find?_eq_none]
    intro x hx
    simp only [List.mem_map] at hx
    obtain ⟨g, hg, rfl⟩ := hx
    simpa [hf] using hfresh g hg
  rw [h1]
  simp [List.find?, hg0]

/-- C4: in both scheduler variants, whenever a pending match is found and
a match-game row is created, the flip value stored on the new row is the
parity of its identifier (`flip = (id mod 2 == 1)`); and the flip
computation itself satisfies `flipOf id = (id mod 2 == 1)` for every
identifier. -/
theorem flip_from_new_row_parity (s : Sys) (tok : AuthToken)
    (trS : TrainingTaskRec) (trG : TrainingRun) (now : Nat) (tid : String)
    (slice : Int) (m m' : MatchRec)
    (hm : (fetchPendingMatch s trS.id slice).1 = some m)
    (hm' : (fetchPendingMatch s trG.id slice).1 = some m')
    (hfresh : ∀ g ∈ s.db.matchGames, g.id ≠ s.db.nextId) :
    (∀ id, flipOf id = decide (id % 2 = 1)) ∧
    (getNextMatchTaskSql s tok trS now tid slice).2.db.matchGames.find?
        (fun g => g.id == s.db.nextId) =
      some { id := s.db.nextId, userId := tok.userId.getD 0,
             matchId := m.id, version := 0, pgn := "", result := 0,
             done := false, flip := decide (s.db.nextId % 2 = 1),
             engineVersion := "" } ∧
    (getNextMatchTaskGorm s tok trG now tid slice).2.db.matchGames.find?
        (fun g => g.id == s.db.nextId) =
      some { id := s.db.nextId, userId := tok.userId.getD 0,
             matchId := m'.id, version := 0, pgn := "", result := 0,
             done := false, flip := decide (s.db.nextId % 2 = 1),
             engineVersion := "" } := by
  refine ⟨flipOf_eq_mod, ?_, ?_⟩
  · rw [getNextMatchTaskSql_matchGames s tok trS now tid slice m hm]
    rw [find?_fresh_append s.db.matchGames s.db.nextId _ hfresh
      (fun g : MatchGame =>
        if g.id = s.db.nextId then { g with flip := flipOf s.db.nextId }
        else g)
      (fun g => by by_cases h : g.id = s.db.nextId <;> simp [h]) rfl]
    simp [flipOf_eq_mod]
  · rw [getNextMatchTaskGorm_matchGames s tok trG now tid slice m' hm']
    rw [find?_fresh_append s.db.matchGames s.db.nextId _ hfresh
      (fun g : MatchGame =>
        if g.id = s.db.nextId then { g with flip := flipOf s.db.nextId }
        else g)
      (fun g => by by_cases h : g.id = s.db.nextId <;> simp [h]) rfl]
    simp [flipOf_eq_mod]

/-- Concrete fixture: a pending match whose candidate network (id 42)
has no row, while the current-best network (id 3) exists. -/
def matchFix : MatchRec :=
  { id := 1, trainingRunId := 1, parameters := "", candidateId := 42,
    currentBestId := 3, gamesCreated := 0, wins := 0, losses := 0,
    draws := 0, gameCap := 10, done := false, passed := false,
    testOnly := false, specialParams := false, targetSlice := 0 }

/-- Concrete fixture: the current-best network row. -/
def netFix : Network :=
  { id := 3, trainingRunId := 1, networkNumber := 7, sha := "besthash",
    path := "", layers := 0, filters := 0, gamesPlayed := 0, elo := 0,
    anchor := false, eloSet := false }

/-- Concrete fixture: the match book row. -/
def bookFix : Book :=
  { id := 1, sha256 := "bookhash", url := "http://books/x",
    sizeBytes := 123, format := "pgn" }

/-- Concrete fixture: the active training task (sql variant). -/
def trainingTaskFix : TrainingTaskRec :=
  { id := 1, taskId := 1, trainingRunId := some 1, trainBookId := 2,
    matchBookId := 1, bestNetworkId := 3, trainParameters := "",
    matchParameters := "-p", active := true }

/-- Concrete fixture: the active training run (gorm variant). -/
def trainingRunFix : TrainingRun :=
  { id := 1, bestNetworkId := 3, description := "", trainParameters := "",
    matchParameters := "-p", trainBook := "tb", matchBook := "mb",
    active := true, lastNetwork := 0, lastGame := 0, permissionExpr := "",
    multiNetMode := false }

/-- Concrete fixture: a stored valid token `"lc0-a"`. -/
def tokenFix : AuthToken :=
  { id := 5, userId := some 4, token := [108, 99, 48, 45, 97],
    lastUsedAt := none, issuedReason := "", clientVersion := "",
    clientHost := "", gpuType := "", gpuId := none }

/-- Concrete fixture: the store holding the rows above, next sequence
value 7. -/
def sysFix : Sys :=
  { db := { authTokens := [tokenFix], trainingRuns := [trainingRunFix],
            networks := [netFix], matchRows := [matchFix],
            matchGames := [], books := [bookFix],
            trainingTasks := [trainingTaskFix], taskRows := [],
            nextId := 7 },
    log := [] }

/-- Witness for C4: on the concrete store the fresh identifier is 7
(odd), and both variants store `flip = true` on the new match-game row. -/
theorem flip_from_new_row_parity_witness :
    (getNextMatchTaskSql sysFix tokenFix trainingTaskFix 5 "t"
        1).2.db.matchGames.find? (fun g => g.id == sysFix.db.nextId) =
      some { id := 7, userId := 4, matchId := 1, version := 0, pgn := "",
             result := 0, done := false, flip := true,
             engineVersion := "" } := by
  have h := (flip_from_new_row_parity sysFix tokenFix trainingTaskFix
    trainingRunFix 5 "t" 1 matchFix matchFix rfl rfl
    (by simp [sysFix])).2.1
  simpa [sysFix, tokenFix, matchFix] using h

/-- C8: for a well-formed stored token and an existing assignment row,
`ReportProgress` answers CANCELLED exactly when the stored status is
CANCELLED (and ACTIVE otherwise), rewrites the assignment table only at
the fetched row's identifier — setting `lastHeartbeatAt` to the current
time and keeping every other column, in particular `status`, unchanged —
and leaves the match and match-game tables untouched. -/
theorem reportProgress_heartbeat_only (s : Sys) (token : List UInt8)
    (tid : String) (kind : ProgressKind) (now : Nat) (tok : AuthToken)
    (t : TaskRow)
    (hfmt : tokenFormatBad token = false)
    (htok : findAuthToken s.db token = some tok)
    (ht : s.db.taskRows.find? (fun r => r.taskId == tid) = some t) :
    ((ReportProgress s token tid kind now).1 =
      .ok (if t.status == TaskStatusCancelled then ProgressStatus.cancelled
           else ProgressStatus.active)) ∧
    ((ReportProgress s token tid kind now).1 = .ok ProgressStatus.cancelled
      ↔ t.status = TaskStatusCancelled) ∧
    ((ReportProgress s token tid kind now).2.db.taskRows =
      s.db.taskRows.map (fun r : TaskRow =>
        if r.id = t.id then { t with lastHeartbeatAt := some now } else r)) ∧
    (∀ r ∈ (ReportProgress s token tid kind now).2.db.taskRows,
      r.id = t.id → r.status = t.status ∧ r.lastHeartbeatAt = some now) ∧
    (ReportProgress s token tid kind now).2.db.matchRows = s.db.matchRows ∧
    (ReportProgress s token tid kind now).2.db.matchGames =
      s.db.matchGames := by
  have h1 : (ReportProgress s token tid kind now).1 =
      .ok (if t.status == TaskStatusCancelled then ProgressStatus.cancelled
           else ProgressStatus.active) := by
    cases kind <;>
      simp [ReportProgress, validateToken, fetchTaskRowByTaskId,
        saveTaskRow, saveAuthToken, setDb, logOp, hfmt, htok, ht]
  have h3 : (ReportProgress s token tid kind now).2.db.taskRows =
      s.db.taskRows.map (fun r : TaskRow =>
        if r.id = t.id then { t with lastHeartbeatAt := some now }
        else r) := by
    cases kind <;>
      simp [ReportProgress, validateToken, fetchTaskRowByTaskId,
        saveTaskRow, saveAuthToken, setDb, logOp, hfmt, htok, ht]
  refine ⟨h1, ?_, h3, ?_, ?_, ?_⟩
  · rw [h1]
    by_cases hc : t.status == TaskStatusCancelled
    · simp only [hc, if_true]
      simpa using (beq_iff_eq.mp hc)
    · simp only [hc, Bool.false_eq_true, if_false]
      constructor
      · intro habs
        exact absurd habs (by simp)
      · intro heq
        exact absurd (beq_iff_eq.mpr heq) hc
  · intro r hr hrid
    rw [h3] at hr
    simp only [List.mem_map] at hr
    obtain ⟨r0, hr0, rfl⟩ := hr
    by_cases h : r0.id = t.id
    · simp [h]
    · simp only [h, if_false] at hrid ⊢
  · cases kind <;>
      simp [ReportProgress, validateToken, fetchTaskRowByTaskId,
        saveTaskRow, saveAuthToken, setDb, logOp, hfmt, htok, ht]
  · cases kind <;>
      simp [ReportProgress, validateToken, fetchTaskRowByTaskId,
        saveTaskRow, saveAuthToken, setDb, logOp, hfmt, htok, ht]

/-- Concrete fixture: a CANCELLED assignment row with external id "x". -/
def taskRowFix : TaskRow :=
  { id := 9, taskId := "x", taskType := "MATCH", payloadJSON := "",
    assignedTokenId := some 5, assignedAt := some 1,
    lastHeartbeatAt := some 1, status := "CANCELLED",
    cancelledAt := some 2, completedAt := none }

/-- Concrete fixture: store with the valid token and the cancelled row. -/
def sysFixC8 : Sys :=
  { db := { authTokens := [tokenFix], trainingRuns := [], networks := [],
            matchRows := [], matchGames := [], books := [],
            trainingTasks := [], taskRows := [taskRowFix], nextId := 10 },
    log := [] }

/-- Witness for C8: a heartbeat on the cancelled assignment answers
CANCELLED. -/
theorem reportProgress_heartbeat_only_witness :
    (ReportProgress sysFixC8 tokenFix.token "x" ProgressKind.matchKind
      3).1 = .ok ProgressStatus.cancelled :=
  (reportProgress_heartbeat_only sysFixC8 tokenFix.token "x"
    ProgressKind.matchKind 3 tokenFix taskRowFix rfl rfl rfl).2.1.mpr rfl

/-- An in-range `getD` lands in the list. -/
theorem getD_mem_of_lt (l : List UInt8) (k : Nat) (d : UInt8)
    (h : k < l.length) : l.getD k d ∈ l := by
  rw [List.getD_eq_getElem?_getD, List.getElem?_eq_getElem h]
  simp [List.getElem_mem]

/-- Hex encoding doubles the byte length. -/
theorem hexEncode_length (bs : List UInt8) :
    (hexEncode bs).length = 2 * bs.length := by
  induction bs with
  | nil => simp [hexEncode]
  | cons b t ih =>
    rw [show hexEncode (b :: t) =
        [hexTable.getD (b.toNat / 16) 0, hexTable.getD (b.toNat % 16) 0] ++
          hexEncode t from rfl,
      List.length_append, ih]
    simp only [List.length_cons, List.length_nil]
    omega

/-- Every byte emitted by the hex encoder is a hex-table character. -/
theorem hexEncode_mem_hexTable (bs : List UInt8) :
    ∀ c ∈ hexEncode bs, c ∈ hexTable := by
  induction bs with
  | nil => simp [hexEncode]
  | cons b t ih =>
    intro c hc
    simp only [hexEncode, List.flatMap_cons, List.mem_append,
      List.mem_cons, List.not_mem_nil, or_false] at hc
    rcases hc with (rfl | rfl) | hc
    · exact getD_mem_of_lt hexTable (b.toNat / 16) 0
        (by have := b.toNat_lt; simp [hexTable]; omega)
    · exact getD_mem_of_lt hexTable (b.toNat % 16) 0
        (by simp [hexTable]; omega)
    · exact ih c hc

/-- A successful attempt loop returns the prefix plus the hex encoding of
one of the random draws. -/
theorem generateUniqueTokenLoop_ok (rand : Nat → List UInt8)
    (existsTok : List UInt8 → Bool) :
    ∀ fuel i t, generateUniqueTokenLoop rand existsTok fuel i = .ok t →
      ∃ j, t = lc0Bytes ++ hexEncode (rand j) := by
  intro fuel
  induction fuel with
  | zero =>
    intro i t h
    simp [generateUniqueTokenLoop] at h
  | succ n ih =>
    intro i t h
    simp only [generateUniqueTokenLoop] at h
    split at h
    · exact ih (i + 1) t h
    · exact ⟨i, by injection h with h'; exact h'.symm⟩

/-- When every attempt collides, the loop exhausts its fuel and errors. -/
theorem generateUniqueTokenLoop_error (rand : Nat → List UInt8)
    (existsTok : List UInt8 → Bool)
    (hall : ∀ i, existsTok (lc0Bytes ++ hexEncode (rand i)) = true) :
    ∀ fuel i, generateUniqueTokenLoop rand existsTok fuel i =
      .error "could not generate unique token after several attempts" := by
  intro fuel
  induction fuel with
  | zero => intro i; rfl
  | succ n ih =>
    intro i
    simp only [generateUniqueTokenLoop, hall i, if_true]
    exact ih (i + 1)

/-- C9: when the random source delivers 32 bytes per attempt, every token
`generateUniqueToken` returns is the 4-byte prefix `"lc0-"` followed by
exactly 64 hex-table characters (total length 68), namely the hex encoding
of one of the random draws; and when every one of the up to 10 attempts
collides with an existing token, the function returns the exhaustion error
instead of a token. -/
theorem generateUniqueToken_format (rand : Nat → List UInt8)
    (existsTok : List UInt8 → Bool) (hlen : ∀ i, (rand i).length = 32) :
    (∀ t, generateUniqueToken rand existsTok = .ok t →
      t.length = 68 ∧ t.take 4 = lc0Bytes ∧ (t.drop 4).length = 64 ∧
      (∀ c ∈ t.drop 4, c ∈ hexTable) ∧
      ∃ j, t = lc0Bytes ++ hexEncode (rand j)) ∧
    ((∀ i, existsTok (lc0Bytes ++ hexEncode (rand i)) = true) →
      generateUniqueToken rand existsTok =
        .error "could not generate unique token after several attempts") := by
  constructor
  · intro t h
    obtain ⟨j, rfl⟩ := generateUniqueTokenLoop_ok rand existsTok 10 0 t h
    have hx : (hexEncode (rand j)).length = 64 := by
      rw [hexEncode_length, hlen j]
    have h4 : lc0Bytes.length = 4 := rfl
    refine ⟨?_, ?_, ?_, ?_, ⟨j, rfl⟩⟩
    · simp [List.length_append, hx, h4]
    · rw [show (4 : Nat) = lc0Bytes.length from rfl]
      exact List.take_left lc0Bytes (hexEncode (rand j))
    · rw [show (4 : Nat) = lc0Bytes.length from rfl,
        List.drop_left lc0Bytes (hexEncode (rand j)), hx]
    · rw [show (4 : Nat) = lc0Bytes.length from rfl,
        List.drop_left lc0Bytes (hexEncode (rand j))]
      exact hexEncode_mem_hexTable (rand j)
  · intro hall
    exact generateUniqueTokenLoop_error rand existsTok hall 10 0

/-- Witness for C9: a never-colliding store accepts the first draw, and
the returned token has length 68. -/
theorem generateUniqueToken_format_witness :
    (lc0Bytes ++ hexEncode (List.replicate 32 0)).length = 68 := by
  have h := (generateUniqueToken_format (fun _ => List.replicate 32 0)
    (fun _ => false) (fun i => by simp)).1
    (lc0Bytes ++ hexEncode (List.replicate 32 0)) rfl
  exact h.1

/-- C6 (bug exhibit): on the concrete store, the pending match references
candidate network 42, which has no row, so the candidate-hash lookup
fails; both scheduler variants nevertheless return a MATCH payload whose
candidate resource hash is the empty string (the baseline hash and the
book resolve normally), instead of skipping the match or failing the
request. -/
theorem match_assigned_despite_failed_candidate_lookup :
    (getNextMatchTaskSql sysFix tokenFix trainingTaskFix 5 "t" 1).1 =
      some { taskId := "t",
             task := .matchTask
               { baseline :=
                   { network := { sha256 := "besthash", url := "",
                                  sizeBytes := 0, rtype := .network,
                                  format := "" },
                     params := { args := ["-p"], uciOptions := [] } },
                 candidate :=
                   { network := { sha256 := "", url := "", sizeBytes := 0,
                                  rtype := .network, format := "" },
                     params := { args := ["-p"], uciOptions := [] } },
                 openingBook := { sha256 := "bookhash",
                                  url := "http://books/x", sizeBytes := 123,
                                  rtype := .book, format := "pgn" } } } ∧
    (getNextMatchTaskGorm sysFix tokenFix trainingRunFix 5 "t" 1).1 =
      some { taskId := "t",
             task := .matchTask
               { baseline :=
                   { network := { sha256 := "besthash", url := "",
                                  sizeBytes := 0, rtype := .network,
                                  format := "" },
                     params := { args := ["-p"], uciOptions := [] } },
                 candidate :=
                   { network := { sha256 := "", url := "", sizeBytes := 0,
                                  rtype := .network, format := "" },
                     params := { args := ["-p"], uciOptions := [] } },
                 openingBook := { sha256 := "", url := "mb", sizeBytes := 0,
                                  rtype := .book, format := "pgn" } } } :=
  ⟨rfl, rfl⟩

/-- The `stats` never produces a Go error return (its only abnormal exits are
panics). -/
theorem stats_ne_fail (pdf : List PdfEntry) (e : String) :
    stats pdf ≠ .fail e := by
  unfold stats
  split
  · simp
  · split
    · simp
    · simp

/-- The bisection loop's only error is non-convergence. -/
theorem bisectLoop_fail_msg (pdf : List PdfEntry) :
    ∀ fuel a b fa fb e, bisectLoop pdf fuel a b fa fb = .fail e →
      e = "secular: did not converge" := by
  intro fuel
  induction fuel with
  | zero =>
    intro a b fa fb e h
    simp only [bisectLoop] at h
    injection h with h'
    exact h'.symm
  | succ n ih =>
    intro a b fa fb e h
    simp only [bisectLoop] at h
    split at h
    · simp at h
    · split at h
      · exact ih _ _ _ _ _ h
      · exact ih _ _ _ _ _ h

/-- The error messages `secular` can produce. -/
theorem secular_fail_msg (pdf : List PdfEntry) (e : String)
    (h : secular pdf = .fail e) :
    e = "secular: v*w >= 0" ∨ e = "secular: root not bracketed" ∨
      e = "secular: did not converge" := by
  simp only [secular] at h
  split at h
  · injection h with h'
    exact Or.inl h'.symm
  · split at h
    · injection h with h'
      exact Or.inr (Or.inl h'.symm)
    · exact Or.inr (Or.inr (bisectLoop_fail_msg pdf 100 _ _ _ _ e h))

/-- Every error return of the MLE fixed-point loop originates in a
`secular` failure. -/
theorem mleLoop_fail_from_secular (pdfhat : List PdfEntry) (ref s : ℝ) :
    ∀ fuel pdfMLE e, mleLoop pdfhat ref s fuel pdfMLE = .fail e →
      ∃ p1, secular p1 = .fail e := by
  intro fuel
  induction fuel with
  | zero =>
    intro pdfMLE e h
    simp [mleLoop] at h
  | succ n ih =>
    intro pdfMLE e h
    simp only [mleLoop] at h
    cases hst : stats pdfMLE with
    | fail e' => exact absurd hst (stats_ne_fail pdfMLE e')
    | panicked e' => rw [hst] at h; simp at h
    | ok mv =>
      obtain ⟨mu, var⟩ := mv
      rw [hst] at h
      simp only at h
      cases hsec : secular (pdfhat.map (fun v =>
          (v.1 - ref - s * Real.sqrt var *
            (1 + ((mu - v.1) / Real.sqrt var) ^ 2) / 2, v.2))) with
      | fail e' =>
        rw [hsec] at h
        simp at h
        exact ⟨_, by rw [hsec, h]⟩
      | panicked e' => rw [hsec] at h; simp at h
      | ok x =>
        rw [hsec] at h
        split at h
        · rename_i x' e' heq
          simp at heq
        · rename_i x' e' heq
          simp at heq
        · rename_i y x' heq
          injection heq with hx
          subst hx
          split at h
          · simp at h
          · exact ih _ e h

/-- The `PentanomialSPRT` on a length-5 input, unfolded to its propagation
structure. -/
theorem pentanomial_eq_match (results : List ℤ) (elo0 elo1 : ℝ)
    (h5 : results.length = 5) :
    PentanomialSPRT results elo0 elo1 =
      match MLE_tvalue (empPdf results) (1/2) (tvalue elo0) with
      | .fail e => .fail e
      | .panicked e => .panicked e
      | .ok pdf0 =>
        match MLE_tvalue (empPdf results) (1/2) (tvalue elo1) with
        | .fail e => .fail e
        | .panicked e => .panicked e
        | .ok pdf1 =>
          match stats (zipWith3
              (fun q0 q1 pv => (Real.log q1.2 - Real.log q0.2, pv.2))
              pdf0 pdf1 (empPdf results)) with
          | .fail e => .fail e
          | .panicked e => .panicked e
          | .ok sv => .ok ((clipped results).sum * sv.1) := by
  simp only [PentanomialSPRT, if_neg (show ¬results.length ≠ 5 by simp [h5])]

/-- C2: `PentanomialSPRT` errors exactly as specified — a length other
than 5 yields the length error; an error from either MLE fixed-point run
(which can only originate in a `secular` failure: a non-negative `v·w`
bracket product, a non-bracketed root, or bisection non-convergence) is
propagated verbatim as the result, never replaced by an error-free zero;
and a successful result presupposes that the length check and both MLE
runs succeeded. -/
theorem pentanomial_error_propagation (results : List ℤ) (elo0 elo1 : ℝ) :
    (results.length ≠ 5 →
      PentanomialSPRT results elo0 elo1 =
        .fail "results must have length 5") ∧
    (∀ e, results.length = 5 →
      MLE_tvalue (empPdf results) (1/2) (tvalue elo0) = .fail e →
      PentanomialSPRT results elo0 elo1 = .fail e) ∧
    (∀ e p0, results.length = 5 →
      MLE_tvalue (empPdf results) (1/2) (tvalue elo0) = .ok p0 →
      MLE_tvalue (empPdf results) (1/2) (tvalue elo1) = .fail e →
      PentanomialSPRT results elo0 elo1 = .fail e) ∧
    (∀ e, MLE_tvalue (empPdf results) (1/2) (tvalue elo0) = .fail e ∨
          MLE_tvalue (empPdf results) (1/2) (tvalue elo1) = .fail e →
      (∃ p1, secular p1 = .fail e) ∧
      (e = "secular: v*w >= 0" ∨ e = "secular: root not bracketed" ∨
        e = "secular: did not converge")) ∧
    (∀ x, PentanomialSPRT results elo0 elo1 = .ok x →
      results.length = 5 ∧ ∃ p0 p1,
        MLE_tvalue (empPdf results) (1/2) (tvalue elo0) = .ok p0 ∧
        MLE_tvalue (empPdf results) (1/2) (tvalue elo1) = .ok p1) := by
  refine ⟨?_, ?_, ?_, ?_, ?_⟩
  · intro h
    simp only [PentanomialSPRT, if_pos h]
  · intro e h5 hm
    rw [pentanomial_eq_match results elo0 elo1 h5, hm]
  · intro e p0 h5 hm0 hm1
    rw [pentanomial_eq_match results elo0 elo1 h5, hm0, hm1]
  · intro e he
    have hf : ∃ p1, secular p1 = .fail e := by
      rcases he with h | h
      · unfold MLE_tvalue at h
        exact mleLoop_fail_from_secular _ _ _ 10 _ e h
      · unfold MLE_tvalue at h
        exact mleLoop_fail_from_secular _ _ _ 10 _ e h
    obtain ⟨p1, hp1⟩ := hf
    exact ⟨⟨p1, hp1⟩, secular_fail_msg p1 e hp1⟩
  · intro x hx
    by_cases h5 : results.length = 5
    · refine ⟨h5, ?_⟩
      rw [pentanomial_eq_match results elo0 elo1 h5] at hx
      cases hm0 : MLE_tvalue (empPdf results) (1/2) (tvalue elo0) with
      | fail e => rw [hm0] at hx; simp at hx
      | panicked e => rw [hm0] at hx; simp at hx
      | ok p0 =>
        rw [hm0] at hx
        cases hm1 : MLE_tvalue (empPdf results) (1/2) (tvalue elo1) with
        | fail e => rw [hm1] at hx; simp at hx
        | panicked e => rw [hm1] at hx; simp at hx
        | ok p1 => exact ⟨p0, p1, rfl, rfl⟩
    · exfalso
      simp only [PentanomialSPRT, if_pos h5] at hx
      simp at hx

/-- Witness for C2 at the length-3 input `[1, 1, 1]`. -/
theorem pentanomial_error_propagation_witness :
    PentanomialSPRT [1, 1, 1] 0 0 = .fail "results must have length 5" :=
  (pentanomial_error_propagation [1, 1, 1] 0 0).1 (by simp)

/-- When the two MLE distributions coincide, every per-bucket LLR term is
zero. -/
theorem zipWith3_log_self_first_zero (p : List PdfEntry) :
    ∀ pdf : List PdfEntry,
      ∀ v ∈ zipWith3 (fun q0 q1 pv : PdfEntry =>
          ((Real.log q1.2 - Real.log q0.2, pv.2) : PdfEntry)) p p pdf,
        v.1 = 0 := by
  induction p with
  | nil =>
    intro pdf v hv
    simp [zipWith3] at hv
  | cons a t ih =>
    intro pdf v hv
    cases pdf with
    | nil => simp [zipWith3] at hv
    | cons c cs =>
      simp only [zipWith3, List.mem_cons] at hv
      rcases hv with rfl | hv
      · simp
      · exact ih cs v hv

/-- A successful `stats` run on a pdf whose outcome values are all zero
reports mean zero. -/
theorem stats_ok_mean_zero (l : List PdfEntry) (hz : ∀ v ∈ l, v.1 = 0)
    (sv : ℝ × ℝ) (h : stats l = .ok sv) : sv.1 = 0 := by
  unfold stats at h
  split at h
  · simp at h
  · split at h
    · simp at h
    · injection h with h'
      have hsum : (l.map (fun v => v.2 * v.1)).sum = 0 := by
        apply List.sum_eq_zero
        intro x hx
        simp only [List.mem_map] at hx
        obtain ⟨v, hv, rfl⟩ := hx
        rw [hz v hv, mul_zero]
      rw [← h']
      exact hsum

/-- C10: with equal null and alternative hypotheses, an error-free
`PentanomialSPRT` run returns an LLR of exactly zero. -/
theorem pentanomial_equal_hypotheses_zero (results : List ℤ) (elo : ℝ)
    (v : ℝ) (h : PentanomialSPRT results elo elo = .ok v) : v = 0 := by
  by_cases h5 : results.length = 5
  · rw [pentanomial_eq_match results elo elo h5] at h
    cases hm : MLE_tvalue (empPdf results) (1/2) (tvalue elo) with
    | fail e => rw [hm] at h; simp at h
    | panicked e => rw [hm] at h; simp at h
    | ok p =>
      rw [hm] at h
      simp only at h
      cases hs : stats (zipWith3
          (fun q0 q1 pv => (Real.log q1.2 - Real.log q0.2, pv.2))
          p p (empPdf results)) with
      | fail e => rw [hs] at h; simp at h
      | panicked e => rw [hs] at h; simp at h
      | ok sv =>
        rw [hs] at h
        simp only at h
        injection h with h'
        have hz := stats_ok_mean_zero _
          (zipWith3_log_self_first_zero p (empPdf results)) sv hs
        rw [← h', hz, mul_zero]
  · exfalso
    simp only [PentanomialSPRT, if_pos h5] at h
    simp at h

/-- The empirical pdf of the symmetric count vector `[1,1,1,1,1]`. -/
noncomputable def pdfFifth : List PdfEntry :=
  [(0, 1/5), (1/4, 1/5), (1/2, 1/5), (3/4, 1/5), (1, 1/5)]

/-- The tilting supports produced for `pdfFifth` at shift `s = 0`. -/
noncomputable def pdfTiltC10 : List PdfEntry :=
  [(-(1/2), 1/5), (-(1/4), 1/5), (0, 1/5), (1/4, 1/5), (1/2, 1/5)]

/-- The per-bucket LLR list when both MLE distributions coincide on
`pdfFifth`. -/
noncomputable def pdfZeroFirst : List PdfEntry :=
  [(0, 1/5), (0, 1/5), (0, 1/5), (0, 1/5), (0, 1/5)]

/-- The `stats` on the symmetric empirical pdf: mean 1/2, variance 1/8. -/
theorem stats_pdfFifth : stats pdfFifth = .ok (1/2, 1/8) := by
  unfold stats pdfFifth
  rw [if_neg, if_neg]
  · norm_num
  · simp only [List.map_cons, List.map_nil, List.sum_cons, List.sum_nil]
    norm_num
  · simp only [List.mem_cons, List.not_mem_nil, or_false]
    push_neg
    intro v hv
    rcases hv with rfl | rfl | rfl | rfl | rfl <;> norm_num

/-- A bisection step whose midpoint already satisfies the residual test
returns the midpoint. -/
theorem bisectLoop_converges_at_mid (pdf : List PdfEntry) (fuel : Nat)
    (a b fa fb c : ℝ) (hc : (a + b) / 2 = c)
    (hfc : |secularF pdf c| < 1/1000000000000) :
    bisectLoop pdf (fuel + 1) a b fa fb = .ok c := by
  simp only [bisectLoop]
  rw [hc, if_pos (Or.inl hfc)]

set_option maxRecDepth 8000 in
set_option maxHeartbeats 2000000 in
/-- On the symmetric tilting supports the secular bracket is
`(-2, 2)`, the first midpoint is exactly 0, and the residual there is 0,
so the bisection returns the exact root at its first step. -/
theorem secular_tilt : secular pdfTiltC10 = .ok 0 := by
  have hmin : List.foldl (fun acc e => if e.1 < acc then e.1 else acc)
      ((pdfTiltC10.headD (0, 0)).1) pdfTiltC10 = -(1/2) := by
    simp only [pdfTiltC10, List.headD_cons, List.foldl_cons, List.foldl_nil]
    norm_num
  have hmax : List.foldl (fun acc e => if e.1 > acc then e.1 else acc)
      ((pdfTiltC10.getLastD (0, 0)).1) pdfTiltC10 = 1/2 := by
    simp only [pdfTiltC10, List.getLastD_cons, List.foldl_cons,
      List.foldl_nil]
    norm_num
  have hf0 : secularF pdfTiltC10 0 = 0 := by
    unfold secularF pdfTiltC10
    norm_num
  have hfa : secularF pdfTiltC10 (-1 / (1 / 2) + 1 / 1000000000) > 0 := by
    unfold secularF pdfTiltC10
    norm_num
  have hfb : secularF pdfTiltC10 (-1 / -(1 / 2) - 1 / 1000000000) < 0 := by
    unfold secularF pdfTiltC10
    norm_num
  simp only [secular]
  rw [hmin, hmax]
  rw [if_neg (by norm_num)]
  rw [if_neg (by nlinarith [hfa, hfb])]
  rw [show (100 : Nat) = 99 + 1 from rfl]
  exact bisectLoop_converges_at_mid pdfTiltC10 99 _ _ _ _ 0 (by norm_num)
    (by rw [hf0]; norm_num)

set_option maxRecDepth 8000 in
set_option maxHeartbeats 2000000 in
/-- At shift 0 the MLE fixed-point loop converges after one iteration to
the empirical distribution itself. -/
theorem mle_eval : MLE_tvalue pdfFifth (1/2) 0 = .ok pdfFifth := by
  have huni : uniform pdfFifth = pdfFifth := by
    unfold uniform pdfFifth
    norm_num
  have htilt : pdfFifth.map (fun v =>
      (v.1 - 1/2 - 0 * Real.sqrt (1/8) *
        (1 + ((1/2 - v.1) / Real.sqrt (1/8)) ^ 2) / 2, v.2)) =
      pdfTiltC10 := by
    simp only [pdfFifth, pdfTiltC10, List.map_cons, List.map_nil]
    norm_num
  have hnext : List.zipWith (fun hv tv => (hv.1, hv.2 / (1 + (0:ℝ) * tv.1)))
      pdfFifth pdfTiltC10 = pdfFifth := by
    simp only [pdfFifth, pdfTiltC10, List.zipWith_cons_cons,
      List.zipWith_nil]
    norm_num
  have hdiff : maxAbsDiff pdfFifth pdfFifth = 0 := by
    unfold maxAbsDiff pdfFifth
    norm_num
  unfold MLE_tvalue
  rw [huni, show (10 : Nat) = 9 + 1 from rfl]
  simp only [mleLoop]
  rw [stats_pdfFifth]
  simp only
  rw [htilt, secular_tilt]
  simp only
  rw [hnext, hdiff]
  rw [if_pos (by norm_num)]

set_option maxRecDepth 8000 in
set_option maxHeartbeats 2000000 in
/-- Full evaluation of `PentanomialSPRT` at the symmetric input with both
hypotheses at Elo 0. -/
theorem spen_eval : PentanomialSPRT [1, 1, 1, 1, 1] 0 0 = .ok 0 := by
  have hclip : clipped [1, 1, 1, 1, 1] = [1, 1, 1, 1, 1] := by
    unfold clipped
    norm_num
  have hemp : empPdf [1, 1, 1, 1, 1] = pdfFifth := by
    unfold empPdf
    rw [hclip, show List.range 5 = [0, 1, 2, 3, 4] from rfl]
    simp only [pdfFifth, List.zipWith_cons_cons, List.zipWith_nil_left,
      List.sum_cons, List.sum_nil]
    norm_num
  have ht : tvalue 0 = 0 := by simp [tvalue]
  have hmlePDF : zipWith3
      (fun q0 q1 pv : PdfEntry =>
        ((Real.log q1.2 - Real.log q0.2, pv.2) : PdfEntry))
      pdfFifth pdfFifth pdfFifth = pdfZeroFirst := by
    simp only [pdfFifth, pdfZeroFirst, zipWith3]
    norm_num
  have hstats0 : stats pdfZeroFirst = .ok (0, 0) := by
    unfold stats pdfZeroFirst
    rw [if_neg, if_neg]
    · norm_num
    · simp only [List.map_cons, List.map_nil, List.sum_cons, List.sum_nil]
      norm_num
    · simp only [List.mem_cons, List.not_mem_nil, or_false]
      push_neg
      intro v hv
      rcases hv with rfl | rfl | rfl | rfl | rfl <;> norm_num
  simp only [PentanomialSPRT,
    if_neg (show ¬([1, 1, 1, 1, 1] : List ℤ).length ≠ 5 by simp)]
  rw [ht, hemp, mle_eval]
  simp only
  rw [hmlePDF, hstats0]
  simp only
  rw [hclip]
  norm_num

/-- Witness for C10: at `[1,1,1,1,1]` with both hypotheses at Elo 0 the
engine succeeds, and the theorem forces the returned LLR to be zero. -/
theorem pentanomial_equal_hypotheses_zero_witness :
    PentanomialSPRT [1, 1, 1, 1, 1] 0 0 = .ok 0 ∧ (0 : ℝ) = 0 :=
  ⟨spen_eval, pentanomial_equal_hypotheses_zero [1, 1, 1, 1, 1] 0 0 spen_eval⟩
